import Mathlib

/-!
Verification of the governance core of the clinical-trial data platform:
the schema-contract engine (`src/governance/data_contracts.py`), the
rule-based quality-validation engine (`src/data_quality/validators.py`),
and the lineage index / query (`src/data_quality/lineage_tracker.py`).

Datasets (pandas DataFrames) are modelled as named columns carrying a
pandas dtype string and a list of cell values; wall-clock timestamps and
md5 schema hashes are outside the model and the corresponding record
fields are omitted.  Python exceptions are modelled with `Except String`.
-/

namespace ClinicalPlatform

/-- Cell value of a tabular dataset.  `vnull` models pandas NA/None/NaN
(for the checks modelled here pandas treats NaN as equal to NaN, e.g. in
`duplicated`); floats are modelled as rationals. -/
inductive Val where
  | vnull : Val
  | vstr : String → Val
  | vint : Int → Val
  | vrat : ℚ → Val
deriving DecidableEq

/-- One dataset column: its name, its pandas dtype (as the string pandas
reports for it) and its cell values in row order. -/
structure DCol where
  name : String
  dtype : String
  values : List Val
deriving DecidableEq

/-- A dataset (pandas DataFrame): a list of named columns.  Well-formed
frames have all columns of equal length; theorems that need this carry it
as an explicit hypothesis. -/
structure DFrame where
  cols : List DCol
deriving DecidableEq

/-- Row count of a dataset, `len(df)` in the source: the common length of
its columns (0 for a column-less frame). -/
def dfLen (df : DFrame) : Nat :=
  match df.cols with
  | [] => 0
  | col :: _ => col.values.length

/-- All columns of `df` have the length `len(df)` reports. -/
def DFwf (df : DFrame) : Prop :=
  ∀ col ∈ df.cols, col.values.length = dfLen df

instance (df : DFrame) : Decidable (DFwf df) := by
  unfold DFwf
  infer_instance

/-- Column lookup `df[name]` (pandas column names are unique; the model
takes the first match). -/
def findCol (df : DFrame) (name : String) : Option DCol :=
  df.cols.find? (fun col => col.name == name)

/-- The pandas dtype string of column `name` of `df` (`""` if absent). -/
def dfDtype (df : DFrame) (name : String) : String :=
  ((findCol df name).map (fun col => col.dtype)).getD ""

/-- Number of NA cells, `col_data.isna().sum()`. -/
def nullCount (values : List Val) : Nat :=
  (values.filter (fun v => v == Val.vnull)).length

/-- Helper for `dupCount`: counts cells equal to some earlier cell. -/
def dupCountAux : List Val → List Val → Nat
  | _, [] => 0
  | seen, v :: rest => (if seen.contains v then 1 else 0) + dupCountAux (v :: seen) rest

/-- Number of duplicated cells, `col_data.duplicated().sum()` (pandas
default `keep="first"`: every occurrence after the first is counted). -/
def dupCount (values : List Val) : Nat :=
  dupCountAux [] values

/-- Number of non-NA cells outside the allow-list,
`(~col_data.isin(allowed) & col_data.notna()).sum()`. -/
def invalidAllowedCount (allowed : List Val) (values : List Val) : Nat :=
  (values.filter (fun v => !(allowed.contains v) && !(v == Val.vnull))).length

/-- Elementwise strictly-less-than of one cell against a numeric bound.
A missing cell is numeric NaN (a pandas numeric column stores missing
values as NaN), which compares false; a string cell makes pandas raise
`TypeError` for ordering comparisons on object columns, modelled as
`Except.error` with a representative message. -/
def valLtQ (v : Val) (m : ℚ) : Except String Bool :=
  match v with
  | Val.vnull => Except.ok false
  | Val.vint n => Except.ok (decide ((n : ℚ) < m))
  | Val.vrat q => Except.ok (decide (q < m))
  | Val.vstr _ => Except.error "TypeError: ordering comparison of str and numeric"

/-- Elementwise strictly-greater-than of one cell against a numeric bound;
missing cells compare false, string cells raise `TypeError` as pandas
does. -/
def valGtQ (v : Val) (m : ℚ) : Except String Bool :=
  match v with
  | Val.vnull => Except.ok false
  | Val.vint n => Except.ok (decide (m < (n : ℚ)))
  | Val.vrat q => Except.ok (decide (m < q))
  | Val.vstr _ => Except.error "TypeError: ordering comparison of str and numeric"

/-- Sum of an elementwise fallible comparison over a column: the count of
true cells, or the error pandas raises on the first offending cell. -/
def exCount (cmp : Val → Except String Bool) : List Val → Except String Nat
  | [] => Except.ok 0
  | v :: rest =>
    match cmp v with
    | Except.error e => Except.error e
    | Except.ok b =>
      match exCount cmp rest with
      | Except.error e => Except.error e
      | Except.ok n => Except.ok ((if b then 1 else 0) + n)

/-- Number of cells below the minimum bound, `(col_data < min).sum()`;
raises on string cells as pandas does. -/
def belowMinCount (m : ℚ) (values : List Val) : Except String Nat :=
  exCount (fun v => valLtQ v m) values

/-- Number of cells above the maximum bound, `(col_data > max).sum()`;
raises on string cells as pandas does. -/
def aboveMaxCount (m : ℚ) (values : List Val) : Except String Nat :=
  exCount (fun v => valGtQ v m) values

/-- Schema-evolution compatibility mode (`CompatibilityMode`). -/
inductive CompatibilityMode where
  | backward : CompatibilityMode
  | forward : CompatibilityMode
  | full : CompatibilityMode
  | nocompat : CompatibilityMode
deriving DecidableEq

/-- Kind of detected schema change (`ChangeType`). -/
inductive ChangeType where
  | columnAdded : ChangeType
  | columnRemoved : ChangeType
  | typeChanged : ChangeType
  | nullableChanged : ChangeType
  | constraintAdded : ChangeType
  | constraintRemoved : ChangeType
deriving DecidableEq

/-- A detected schema change (`SchemaChange`). -/
structure SchemaChange where
  changeType : ChangeType
  columnName : String
  oldValue : Option String
  newValue : Option String
  isBreaking : Bool
  description : String
deriving DecidableEq

/-- Contract for a single column (`ColumnContract`).  The `pattern` field
is declared by the source but never checked by `validate_values`. -/
structure ColumnContract where
  name : String
  dtype : String
  nullable : Bool := true
  unique : Bool := false
  allowedValues : List Val := []
  minValue : Option ℚ := none
  maxValue : Option ℚ := none
  pattern : Option String := none
  description : String := ""
deriving DecidableEq

/-- Full dataset contract (`DataContract`).  The dataclass performs no
validation of its fields on construction, and `DataContract.load` builds
the instance directly from the parsed JSON with no extra checks, so any
field combination is accepted; timestamps are outside the model. -/
structure DataContract where
  name : String
  version : String
  domain : String
  description : String
  owner : String
  columns : List ColumnContract
  compatibilityMode : CompatibilityMode := CompatibilityMode.backward
  primaryKey : List String := []
  foreignKeys : List (String × String) := []
deriving DecidableEq

/-- Char-list match at the head, helper for `strContains`. -/
def leadMatch : List Char → List Char → Bool
  | [], _ => true
  | _ :: _, [] => false
  | p :: ps, c :: cs => p == c && leadMatch ps cs

/-- Char-list substring search, helper for `strContains`. -/
def hasSubChars (pat : List Char) : List Char → Bool
  | [] => leadMatch pat []
  | c :: cs => leadMatch pat (c :: cs) || hasSubChars pat cs

/-- Substring test, modelling Python `pat in s`. -/
def strContains (s pat : String) : Bool :=
  hasSubChars pat.data s.data

/-- Dtype normalisation (`ContractValidator._normalize_dtype`). -/
def normalizeDtype (s : String) : String :=
  if strContains s "int" then "int64"
  else if strContains s "float" then "float64"
  else if strContains s "object" || strContains s "string" then "string"
  else if strContains s "datetime" then "datetime64"
  else if strContains s "bool" then "boolean"
  else s

/-- Safe-upcast compatibility matrix (`ContractValidator._types_compatible`). -/
def typesCompatible (expected actual : String) : Bool :=
  if expected == actual then true
  else if expected == "float64" && actual == "int64" then true
  else if expected == "string" && (actual == "string" || actual == "object") then true
  else false

/-- The `column_map` dict of `ContractValidator`: name-keyed lookup where a
later column with the same name overwrites an earlier one. -/
def colMapFind (c : DataContract) (name : String) : Option ColumnContract :=
  c.columns.reverse.find? (fun cc => cc.name == name)

/-- Schema drift detection (`ContractValidator.detect_schema_changes`).
The source iterates Python sets, whose order is arbitrary; the model fixes
added-then-removed-then-type-changed order with deduplicated names, which
agrees with the source up to ordering of the returned list. -/
def detectSchemaChanges (df : DFrame) (c : DataContract) : List SchemaChange :=
  let incoming := (df.cols.map (fun col => col.name)).dedup
  let declared := (c.columns.map (fun cc => cc.name)).dedup
  let added := (incoming.filter (fun n => !(declared.contains n))).map fun n =>
    { changeType := ChangeType.columnAdded, columnName := n,
      oldValue := none, newValue := some (dfDtype df n),
      isBreaking := c.compatibilityMode == CompatibilityMode.forward,
      description := "New column '" ++ n ++ "' detected in incoming data" }
  let removed := (declared.filter (fun n => !(incoming.contains n))).map fun n =>
    { changeType := ChangeType.columnRemoved, columnName := n,
      oldValue := (colMapFind c n).map (fun cc => cc.dtype), newValue := none,
      isBreaking := c.compatibilityMode == CompatibilityMode.backward ||
        c.compatibilityMode == CompatibilityMode.full,
      description := "Required column '" ++ n ++ "' missing from incoming data" }
  let typeChanges := (incoming.filter (fun n => declared.contains n)).filterMap fun n =>
    let expected := ((colMapFind c n).map (fun cc => cc.dtype)).getD ""
    let actual := normalizeDtype (dfDtype df n)
    if typesCompatible expected actual then none
    else some
      { changeType := ChangeType.typeChanged, columnName := n,
        oldValue := some expected, newValue := some actual, isBreaking := true,
        description := "Column '" ++ n ++ "' type changed from " ++ expected ++
          " to " ++ actual }
  added ++ removed ++ typeChanges

/-- Python-dict insertion used by `validate_values`'s `results` dict:
replace the value of an existing key in place, else append. -/
def dictInsert (l : List (String × Nat)) (k : String) (v : Nat) : List (String × Nat) :=
  if l.any (fun p => p.1 == k) then l.map (fun p => if p.1 == k then (k, v) else p)
  else l ++ [(k, v)]

/-- Total failed count of one declared column: the sum of the per-check
failed counts, in the fixed order not-null, unique, allowed-values,
min-bound, max-bound (`ContractValidator.validate_values` body).  The
not-null, unique and allowed-values checks cannot raise; the bound checks
can, and the min check is evaluated — and hence raises — before the max
check, as in the source. -/
def colFailedCount (cc : ColumnContract) (values : List Val) : Except String Nat :=
  match (match cc.minValue with
         | some m => belowMinCount m values
         | none => Except.ok 0) with
  | Except.error e => Except.error e
  | Except.ok minFails =>
    match (match cc.maxValue with
           | some m => aboveMaxCount m values
           | none => Except.ok 0) with
    | Except.error e => Except.error e
    | Except.ok maxFails =>
      Except.ok
        ((if cc.nullable then 0 else nullCount values) +
         (if cc.unique then dupCount values else 0) +
         (if cc.allowedValues.isEmpty then 0
          else invalidAllowedCount cc.allowedValues values) +
         minFails + maxFails)

/-- The per-column loop of `ContractValidator.validate_values`: declared
columns absent from the dataset are skipped, a raising bound check aborts
the whole call, and a duplicated declared column name overwrites its
earlier dict entry. -/
def validateValuesAux (df : DFrame) :
    List ColumnContract → List (String × Nat) → Except String (List (String × Nat))
  | [], acc => Except.ok acc
  | cc :: rest, acc =>
    match findCol df cc.name with
    | none => validateValuesAux df rest acc
    | some col =>
      match colFailedCount cc col.values with
      | Except.error e => Except.error e
      | Except.ok n => validateValuesAux df rest (dictInsert acc cc.name n)

/-- Value-level validation (`ContractValidator.validate_values`), reduced
to the per-column failed counts the decision logic consumes; the error
case is the `TypeError` a bound check raises on string cells. -/
def validateValues (df : DFrame) (c : DataContract) :
    Except String (List (String × Nat)) :=
  validateValuesAux df c.columns []

/-- Whether any detected schema change is classified breaking
(`any(c.is_breaking for c in schema_changes)`). -/
def hasBreakingChange (df : DFrame) (c : DataContract) : Bool :=
  (detectSchemaChanges df c).any (fun ch => ch.isBreaking)

/-- Whether any schema change at all was detected (the truthiness test
`elif schema_changes:`). -/
def anySchemaChange (df : DFrame) (c : DataContract) : Bool :=
  !(detectSchemaChanges df c).isEmpty

/-- Outcome record of `validate_against_contract`
(`ContractValidationResult`); timestamp and md5 schema hash omitted. -/
structure ContractValidationResult where
  contractName : String
  contractVersion : String
  schemaChanges : List SchemaChange
  hasBreakingChanges : Bool
  valueValidation : List (String × Nat)
  totalRecords : Nat
  failedRecords : Nat
  isValid : Bool
  action : String
deriving DecidableEq

/-- Decision entry point (`validate_against_contract`).  Schema-change
detection and value validation run before the decision chain, so a
`TypeError` raised by `validate_values` propagates before any action is
computed; the unguarded Python division `failed_records / len(df)` is
reached only inside the `failed_records > 0` branch, and a division with
`len(df) == 0` is modelled as the raised `ZeroDivisionError`. -/
def validateAgainstContract (df : DFrame) (c : DataContract) :
    Except String ContractValidationResult :=
  let changes := detectSchemaChanges df c
  let hasBreaking := changes.any (fun ch => ch.isBreaking)
  match validateValues df c with
  | Except.error e => Except.error e
  | Except.ok vv =>
    let failed := (vv.map (fun p => p.2)).sum
    let total := dfLen df
    let mk := fun (action : String) (isValid : Bool) =>
      ({ contractName := c.name, contractVersion := c.version,
         schemaChanges := changes, hasBreakingChanges := hasBreaking,
         valueValidation := vv, totalRecords := total, failedRecords := failed,
         isValid := isValid, action := action } : ContractValidationResult)
    if hasBreaking then Except.ok (mk "quarantine" false)
    else if 0 < failed then
      if total = 0 then Except.error "ZeroDivisionError: division by zero"
      else if (5 : ℚ) / 100 < (failed : ℚ) / (total : ℚ) then Except.ok (mk "quarantine" false)
      else Except.ok (mk "alert" true)
    else if !changes.isEmpty then Except.ok (mk "alert" true)
    else Except.ok (mk "accept" true)

/-- Severity of a validation rule (`ValidationSeverity`). -/
inductive ValidationSeverity where
  | error : ValidationSeverity
  | warning : ValidationSeverity
  | info : ValidationSeverity
deriving DecidableEq

/-- Aggregate verdict of a validation run (`ValidationStatus`). -/
inductive ValidationStatus where
  | passed : ValidationStatus
  | failed : ValidationStatus
  | passedWithWarnings : ValidationStatus
deriving DecidableEq

/-- Result of one rule (`ValidationResult`); the wall-clock timestamp is
outside the model, and `details` keeps the string-valued entries the
engine writes (only the `"error"` key is ever set). -/
structure ValidationResult where
  ruleName : String
  description : String
  severity : ValidationSeverity
  passed : Bool
  recordsChecked : Nat
  recordsFailed : Nat
  failurePercentage : ℚ
  failedRecordIds : List Val := []
  details : List (String × String) := []
deriving DecidableEq

/-- Quality report of a run (`DataQualityReport`); timestamp omitted. -/
structure DataQualityReport where
  domain : String
  sourcePath : String
  totalRecords : Nat
  status : ValidationStatus
  results : List ValidationResult

/-- A registered rule: name, description, predicate and severity.  The
predicate models `validation_func`; a Python exception raised by it is the
`Except.error` case, carrying `str(e)`. -/
structure VRule where
  name : String
  description : String
  func : DFrame → Except String (Bool × DFrame)
  severity : ValidationSeverity

/-- The validation engine (`ClinicalDataValidator`): a domain tag and the
ordered rule registry.  The mutable `self.results` scratch list is not
modelled; `validate` rebuilds it from scratch on every call. -/
structure ClinicalDataValidator where
  domain : String
  rules : List VRule

/-- Rule registration (`ClinicalDataValidator.add_rule`): appends the rule
unconditionally — the source performs no duplicate-name check. -/
def addRule (v : ClinicalDataValidator) (name description : String)
    (func : DFrame → Except String (Bool × DFrame))
    (severity : ValidationSeverity := ValidationSeverity.error) : ClinicalDataValidator :=
  { v with rules := v.rules ++ [VRule.mk name description func severity] }

/-- One iteration of the rule loop in `ClinicalDataValidator.validate`:
run the predicate; on success build the regular result (failure percentage
guarded by `total_records > 0`), on exception synthesize the failing
ERROR-severity result with `records_failed = total_records` and
`failure_percentage = 100.0`. -/
def runRule (total : Nat) (idColumn : String) (df : DFrame) (rule : VRule) :
    ValidationResult :=
  match rule.func df with
  | Except.ok (passed, failedDf) =>
    { ruleName := rule.name, description := rule.description,
      severity := rule.severity, passed := passed,
      recordsChecked := total, recordsFailed := dfLen failedDf,
      failurePercentage := if 0 < total then (dfLen failedDf : ℚ) / (total : ℚ) * 100 else 0,
      failedRecordIds :=
        if 0 < dfLen failedDf then ((findCol failedDf idColumn).map (fun col => col.values)).getD []
        else [] }
  | Except.error e =>
    { ruleName := rule.name, description := rule.description,
      severity := ValidationSeverity.error, passed := false,
      recordsChecked := total, recordsFailed := total,
      failurePercentage := 100, details := [("error", e)] }

/-- Aggregate status derivation from the per-rule results: FAILED if any
non-passed ERROR result exists, else PASSED_WITH_WARNINGS if any
non-passed WARNING result exists, else PASSED (the closing block of
`ClinicalDataValidator.validate`). -/
def statusOf (results : List ValidationResult) : ValidationStatus :=
  let hasErrors := results.any fun r => !r.passed && r.severity == ValidationSeverity.error
  let hasWarnings := results.any fun r => !r.passed && r.severity == ValidationSeverity.warning
  if hasErrors then ValidationStatus.failed
  else if hasWarnings then ValidationStatus.passedWithWarnings
  else ValidationStatus.passed

/-- The full validation run (`ClinicalDataValidator.validate`): every
registered rule is evaluated in registration order, exceptions are
contained inside `runRule` (the function is total — nothing propagates to
the caller), and the aggregate status is derived by `statusOf`. -/
def validate (v : ClinicalDataValidator) (df : DFrame)
    (idColumn : String := "USUBJID") : DataQualityReport :=
  let total := dfLen df
  let results := v.rules.map (runRule total idColumn df)
  { domain := v.domain, sourcePath := "", totalRecords := total,
    status := statusOf results, results := results }

/-- The action/validity policy exactly as the specification words it, in
its strict order: breaking change, then failure percentage above 5%, then
any failure, then any residual (non-breaking) change, else accept.  Stated
from the spec's words for comparison against `validateAgainstContract`. -/
def specDecisionPolicy (hasBreaking anyChange : Bool) (failed total : Nat) :
    String × Bool :=
  if hasBreaking then ("quarantine", false)
  else if (5 : ℚ) / 100 < (failed : ℚ) / (total : ℚ) then ("quarantine", false)
  else if 0 < failed then ("alert", true)
  else if anyChange then ("alert", true)
  else ("accept", true)

/-- A lineage record as `LineageQuery` consumes it: the traversal and the
index touch nothing but `record["input_assets"][i]["location"]` and
`record["output_assets"][i]["location"]`, so a record is modelled by its
event id and the two ordered location lists. -/
structure LEvent where
  eventId : String
  inputs : List String
  outputs : List String
deriving DecidableEq

/-- One side of `LineageQuery._build_index`: scanning the records in
order, a record is appended to the bucket of `location` once per asset
entry of `proj record` whose location equals `location` — exactly the
dict-of-lists the Python loop builds.  With `proj = outputs` this is
`by_output[location]`, with `proj = inputs` it is `by_input[location]`. -/
def lookupBy (proj : LEvent → List String) (records : List LEvent)
    (location : String) : List LEvent :=
  records.flatMap fun r => ((proj r).filter (fun l => l == location)).map fun _ => r

/-- The `by_output` index lookup `self.by_output.get(loc, [])`. -/
def lookupOutput (records : List LEvent) (location : String) : List LEvent :=
  lookupBy (fun r => r.outputs) records location

/-- The `by_input` index lookup `self.by_input.get(loc, [])`. -/
def lookupInput (records : List LEvent) (location : String) : List LEvent :=
  lookupBy (fun r => r.inputs) records location

/-- The while-loop shared by `get_upstream` and `get_downstream`: pop the
front of the queue; skip it if already visited or beyond the depth bound;
otherwise mark it visited, emit `idx loc` into the result and enqueue the
not-yet-visited `next` locations of those events at depth+1.  The Python
loop has no fuel; the explicit fuel models its unbounded iteration, and
`traverse_isSome` below shows the fuel chosen by the entry points always
suffices, i.e. the loop terminates.  `none` means the fuel ran out. -/
def traverse (idx : String → List LEvent) (next : LEvent → List String) (maxd : Nat) :
    Nat → List String → List (String × Nat) → List LEvent →
    Option (List String × List LEvent)
  | _, visited, [], result => some (visited, result)
  | 0, _, _ :: _, _ => none
  | fuel + 1, visited, (loc, d) :: rest, result =>
    if loc ∈ visited ∨ maxd < d then
      traverse idx next maxd fuel visited rest result
    else
      let events := idx loc
      let visited' := loc :: visited
      let newItems :=
        ((events.flatMap next).filter (fun l => !(visited'.contains l))).map fun l => (l, d + 1)
      traverse idx next maxd fuel visited' (rest ++ newItems) (result ++ events)

/-- Upper bound on how many queue items one visit can add when the index
is `lookupBy proj₁` and expansion follows `proj₂`: summed over the
records, (number of `proj₁` entries) × (number of `proj₂` entries). -/
def stepBound (proj₁ proj₂ : LEvent → List String) (records : List LEvent) : Nat :=
  (records.flatMap fun r => (proj₁ r).flatMap fun _ => proj₂ r).length

/-- All locations the traversal seeded at `seed` can ever enqueue. -/
def locUniverse (proj₂ : LEvent → List String) (records : List LEvent)
    (seed : String) : Finset String :=
  insert seed (records.flatMap proj₂).toFinset

/-- Fuel that provably suffices for the query loop (see `traverse_isSome`). -/
def queryFuel (proj₁ proj₂ : LEvent → List String) (records : List LEvent)
    (seed : String) : Nat :=
  (stepBound proj₁ proj₂ records + 1) * (locUniverse proj₂ records seed).card + 1

/-- The query loop over a record batch, also exposing the final visited
set; `proj₁` selects the indexed side, `proj₂` the expansion side. -/
def queryFull (proj₁ proj₂ : LEvent → List String) (records : List LEvent)
    (seed : String) (depth : Nat) : Option (List String × List LEvent) :=
  traverse (lookupBy proj₁ records) proj₂ depth
    (queryFuel proj₁ proj₂ records seed) [] [(seed, 0)] []

/-- `LineageQuery.get_upstream` with the internal visited set exposed. -/
def getUpstreamFull (records : List LEvent) (seed : String) (depth : Nat) :
    Option (List String × List LEvent) :=
  queryFull (fun r => r.outputs) (fun r => r.inputs) records seed depth

/-- `LineageQuery.get_upstream(asset_location, depth)`: events that
produced the seed location, then recursively the producers of their input
locations. -/
def getUpstream (records : List LEvent) (seed : String) (depth : Nat) :
    Option (List LEvent) :=
  (getUpstreamFull records seed depth).map (fun p => p.2)

/-- `LineageQuery.get_downstream` with the internal visited set exposed. -/
def getDownstreamFull (records : List LEvent) (seed : String) (depth : Nat) :
    Option (List String × List LEvent) :=
  queryFull (fun r => r.inputs) (fun r => r.outputs) records seed depth

/-- `LineageQuery.get_downstream(asset_location, depth)`: the mirror
traversal over the `by_input` index. -/
def getDownstream (records : List LEvent) (seed : String) (depth : Nat) :
    Option (List LEvent) :=
  (getDownstreamFull records seed depth).map (fun p => p.2)

/-- One-column contract with a required string column `A`, used as a
concrete contract in witnesses. -/
def contractA : DataContract :=
  { name := "clinical_trial_dm", version := "1.0.0", domain := "DM",
    description := "demo", owner := "data-engineering",
    columns := [{ name := "A", dtype := "string", nullable := false }] }

/-- Dataset with one `object`-dtype column `A` holding `k` nulls followed
by `n - k` strings: `k` of `n` records fail the not-null clause. -/
def dfNulls (k n : Nat) : DFrame :=
  ⟨[⟨"A", "object", List.replicate k Val.vnull ++ List.replicate (n - k) (Val.vstr "x")⟩]⟩

/-- An optional (`nullable = true`) declared column. -/
def optCol : ColumnContract :=
  { name := "OPT", dtype := "string", nullable := true }

/-- Contract whose only column is optional (`nullable = true`), for the
missing-optional-column scenario. -/
def contractOpt : DataContract :=
  { name := "c_opt", version := "1.0.0", domain := "DM", description := "",
    owner := "data-engineering", columns := [optCol] }

/-- A bounded numeric column like the DM contract's AGE declaration
(`int64`, min 0, max 120). -/
def ageCol : ColumnContract :=
  { name := "AGE", dtype := "int64", nullable := false,
    minValue := some 0, maxValue := some 120 }

/-- Contract declaring only the bounded AGE column. -/
def contractAge : DataContract :=
  { name := "clinical_trial_dm", version := "1.0.0", domain := "DM",
    description := "", owner := "data-engineering", columns := [ageCol] }

/-- Non-empty dataset whose AGE column arrived as strings (object dtype):
the bound checks of `validate_values` raise `TypeError` on it. -/
def dfAgeStr : DFrame := ⟨[⟨"AGE", "object", [Val.vstr "45"]⟩]⟩

/-- Contract declaring the optional OPT column and the bounded AGE column:
against `dfAgeStr` the missing OPT column yields a breaking change while
the AGE bound check raises before any action is computed. -/
def contractOptAge : DataContract :=
  { name := "c_opt_age", version := "1.0.0", domain := "DM",
    description := "", owner := "data-engineering", columns := [optCol, ageCol] }

/-- Contract whose `primary_key` names a column absent from `columns` —
the malformed-contract scenario of the error taxonomy. -/
def contractBadPK : DataContract :=
  { name := "bad_pk", version := "1.0.0", domain := "DM", description := "",
    owner := "data-engineering",
    columns := [{ name := "A", dtype := "string" }],
    primaryKey := ["USUBJID"] }

/-- A validation engine with no registered rules, base for examples. -/
def emptyValidator : ClinicalDataValidator := ⟨"TEST", []⟩

/-- A predicate that always passes with no failing rows. -/
def okFunc : DFrame → Except String (Bool × DFrame) :=
  fun _ => Except.ok (true, ⟨[]⟩)

/-- An INFO-severity rule whose predicate reports failure. -/
def infoFailRule : VRule :=
  ⟨"R_INFO", "non-passed INFO rule", fun _ => Except.ok (false, ⟨[]⟩),
    ValidationSeverity.info⟩

/-- A rule whose predicate always raises (`Except.error "boom"`). -/
def boomRule : VRule :=
  ⟨"R_BOOM", "raising rule", fun _ => Except.error "boom", ValidationSeverity.error⟩

/-- One-row dataset with a `USUBJID` column. -/
def dfOneRow : DFrame := ⟨[⟨"USUBJID", "object", [Val.vstr "S1"]⟩]⟩

/-- Zero-row dataset with a `USUBJID` column. -/
def dfNoRows : DFrame := ⟨[⟨"USUBJID", "object", []⟩]⟩

/-- Cyclic lineage batch, first event: consumes `A`, produces `B`. -/
def ev1 : LEvent := ⟨"E1", ["A"], ["B"]⟩

/-- Cyclic lineage batch, second event: consumes `B`, produces `A`. -/
def ev2 : LEvent := ⟨"E2", ["B"], ["A"]⟩

/-- An event listing the same output location twice. -/
def evDup : LEvent := ⟨"E_DUP", [], ["B", "B"]⟩

/-- The query loop exits before exhausting its fuel whenever the fuel
covers the measure `(B+1)·|unvisited universe| + |queue|`, where every
queued location lies in the finite universe `U` and one visit enqueues at
most `B` items.  This is the termination argument for the while loop:
each iteration either shrinks the queue or moves a universe location into
the visited set. -/
theorem traverse_isSome (idx : String → List LEvent) (next : LEvent → List String)
    (maxd : Nat) (U : Finset String) (B : Nat)
    (hB : ∀ loc, ((idx loc).flatMap next).length ≤ B)
    (hU : ∀ loc ev, ev ∈ idx loc → ∀ l ∈ next ev, l ∈ U) :
    ∀ fuel visited queue result,
      (∀ p ∈ queue, p.1 ∈ U) →
      (B + 1) * (U \ visited.toFinset).card + queue.length ≤ fuel →
      (traverse idx next maxd fuel visited queue result).isSome := by
  intro fuel
  induction fuel with
  | zero =>
    intro visited queue result hq hm
    cases queue with
    | nil => simp [traverse]
    | cons p rest => simp at hm
  | succ fuel ih =>
    intro visited queue result hq hm
    cases queue with
    | nil => simp [traverse]
    | cons p rest =>
      obtain ⟨loc, d⟩ := p
      rw [traverse]
      by_cases hskip : loc ∈ visited ∨ maxd < d
      · rw [if_pos hskip]
        apply ih
        · intro q hqm
          exact hq q (List.mem_cons_of_mem _ hqm)
        · simp only [List.length_cons] at hm
          omega
      · rw [if_neg hskip]
        push_neg at hskip
        obtain ⟨hnv, _⟩ := hskip
        apply ih
        · intro q hqm
          rcases List.mem_append.mp hqm with h | h
          · exact hq q (List.mem_cons_of_mem _ h)
          · obtain ⟨l, hl, rfl⟩ := List.mem_map.mp h
            obtain ⟨hl1, _⟩ := List.mem_filter.mp hl
            obtain ⟨ev, hev, hlev⟩ := List.mem_flatMap.mp hl1
            exact hU loc ev hev _ hlev
        · have hlocU : loc ∈ U := hq (loc, d) (List.mem_cons_self _ _)
          have hlocSd : loc ∈ U \ visited.toFinset := by
            refine Finset.mem_sdiff.mpr ⟨hlocU, ?_⟩
            simpa [List.mem_toFinset] using hnv
          have hcardPos : 0 < (U \ visited.toFinset).card :=
            Finset.card_pos.mpr ⟨loc, hlocSd⟩
          have hcard : (U \ (loc :: visited).toFinset).card
              = (U \ visited.toFinset).card - 1 := by
            rw [List.toFinset_cons, Finset.sdiff_insert,
              Finset.card_erase_of_mem hlocSd]
          have hnew :
              (((idx loc).flatMap next).filter
                (fun l => !((loc :: visited).contains l))).length ≤ B :=
            le_trans (List.length_filter_le _ _) (hB loc)
          rw [List.length_append, List.length_map, hcard]
          simp only [List.length_cons] at hm
          obtain ⟨j, hj⟩ : ∃ j, (U \ visited.toFinset).card = j + 1 :=
            ⟨(U \ visited.toFinset).card - 1, by omega⟩
          rw [hj] at hm
          rw [hj]
          rw [Nat.mul_succ] at hm
          simp only [Nat.add_sub_cancel]
          omega

/-- Length of a constant flat map. -/
theorem length_flatMap_const {α β : Type} (l : List α) (ys : List β) :
    (l.flatMap fun _ => ys).length = l.length * ys.length := by
  induction l with
  | nil => simp
  | cons x xs ih => simp [ih, Nat.succ_mul, Nat.add_comm]

/-- Length of a flat map over a constant-valued map. -/
theorem length_flatMap_map_const {α β γ : Type} (l : List α) (r : β) (g : β → List γ) :
    ((l.map fun _ => r).flatMap g).length = l.length * (g r).length := by
  induction l with
  | nil => simp
  | cons x xs ih => simp [ih, Nat.succ_mul, Nat.add_comm]

/-- Membership in an index bucket implies membership in the batch. -/
theorem mem_lookupBy {proj : LEvent → List String} {records : List LEvent}
    {loc : String} {ev : LEvent} (h : ev ∈ lookupBy proj records loc) :
    ev ∈ records := by
  obtain ⟨r, hr, hev⟩ := List.mem_flatMap.mp h
  obtain ⟨_, _, rfl⟩ := List.mem_map.mp hev
  exact hr

/-- One visit of the generic query loop enqueues at most `stepBound` items:
the indexed bucket expanded through `proj₂` never exceeds the total over
the batch. -/
theorem lookupBy_expansion_le (proj₁ proj₂ : LEvent → List String)
    (records : List LEvent) (loc : String) :
    ((lookupBy proj₁ records loc).flatMap proj₂).length
      ≤ stepBound proj₁ proj₂ records := by
  unfold lookupBy stepBound
  rw [List.flatMap_assoc]
  rw [List.length_flatMap, List.length_flatMap]
  apply List.sum_le_sum
  intro r _
  simp only [Function.comp]
  rw [length_flatMap_map_const, length_flatMap_const]
  exact Nat.mul_le_mul_right _ (List.length_filter_le _ _)

/-- The generic lineage query always terminates: the fuel `queryFuel`
chosen by the entry points covers the loop's measure, so the modelled
while loop exits on every finite batch, cyclic graphs included. -/
theorem queryFull_isSome (proj₁ proj₂ : LEvent → List String)
    (records : List LEvent) (seed : String) (depth : Nat) :
    (queryFull proj₁ proj₂ records seed depth).isSome := by
  unfold queryFull queryFuel
  apply traverse_isSome _ _ _ (locUniverse proj₂ records seed)
    (stepBound proj₁ proj₂ records)
  · exact lookupBy_expansion_le proj₁ proj₂ records
  · intro loc ev hev l hl
    unfold locUniverse
    apply Finset.mem_insert_of_mem
    rw [List.mem_toFinset]
    exact List.mem_flatMap.mpr ⟨ev, mem_lookupBy hev, hl⟩
  · intro p hp
    simp only [List.mem_singleton] at hp
    subst hp
    exact Finset.mem_insert_self _ _
  · simp

/-- Full characterisation of a completed query loop: the locations marked
visited beyond the initial ones are fresh and pairwise distinct, and the
result is the starting result extended by the index buckets of those
locations, one bucket per marking, in marking order. -/
theorem traverse_visited_result (idx : String → List LEvent)
    (next : LEvent → List String) (maxd : Nat) :
    ∀ fuel visited queue result V res,
      traverse idx next maxd fuel visited queue result = some (V, res) →
      ∃ newLocs : List String,
        V = newLocs ++ visited ∧
        res = result ++ (newLocs.reverse.flatMap idx) ∧
        (∀ l ∈ newLocs, l ∉ visited) ∧ newLocs.Nodup := by
  intro fuel
  induction fuel with
  | zero =>
    intro visited queue result V res h
    cases queue with
    | nil =>
      simp [traverse] at h
      exact ⟨[], by simp [h.1.symm], by simp [h.2.symm], by simp, by simp⟩
    | cons p rest => simp [traverse] at h
  | succ fuel ih =>
    intro visited queue result V res h
    cases queue with
    | nil =>
      simp [traverse] at h
      exact ⟨[], by simp [h.1.symm], by simp [h.2.symm], by simp, by simp⟩
    | cons p rest =>
      obtain ⟨loc, d⟩ := p
      rw [traverse] at h
      by_cases hskip : loc ∈ visited ∨ maxd < d
      · rw [if_pos hskip] at h
        exact ih visited rest result V res h
      · rw [if_neg hskip] at h
        push_neg at hskip
        obtain ⟨hnv, _⟩ := hskip
        obtain ⟨nl, hV, hres, hfresh, hnd⟩ := ih _ _ _ _ _ h
        refine ⟨nl ++ [loc], ?_, ?_, ?_, ?_⟩
        · rw [hV]
          simp [List.append_assoc]
        · rw [hres]
          simp [List.append_assoc]
        · intro l hl
          rcases List.mem_append.mp hl with hlin | hlin
          · have := hfresh l hlin
            simp only [List.mem_cons, not_or] at this
            exact this.2
          · simp only [List.mem_singleton] at hlin
            subst hlin
            exact hnv
        · rw [List.nodup_append]
          refine ⟨hnd, List.nodup_singleton _, ?_⟩
          intro l hlin
          have := hfresh l hlin
          simp only [List.mem_cons, not_or] at this
          simp only [List.mem_singleton]
          exact fun hc => this.1 hc

/-- Occurrence count of an event in a constant-valued map. -/
theorem count_map_const {α : Type} (l : List String) (r e : α) [DecidableEq α] :
    ((l.map fun _ => r).count e) = if r = e then l.length else 0 := by
  induction l with
  | nil => simp
  | cons x xs ih =>
    simp only [List.map_cons, List.count_cons, ih]
    by_cases h : r = e <;> simp [h]

/-- Occurrence count of an event in an index bucket: once per occurrence
of the event in the batch times once per asset entry of the projected side
whose location is the bucket key. -/
theorem count_lookupBy (proj : LEvent → List String) (records : List LEvent)
    (loc : String) (e : LEvent) :
    (lookupBy proj records loc).count e
      = records.count e * ((proj e).count loc) := by
  induction records with
  | nil => simp [lookupBy]
  | cons r rs ih =>
    simp only [lookupBy, List.flatMap_cons, List.count_append] at *
    rw [ih, count_map_const, List.count_cons]
    by_cases h : r = e
    · subst h
      have hcf : List.count loc (proj r) = (List.filter (fun l => l == loc) (proj r)).length := by
        simp [List.count, List.countP_eq_length_filter]
      rw [if_pos rfl, beq_self_eq_true, if_pos rfl, hcf, Nat.succ_mul]
      omega
    · simp [h, Ne.symm h]

/-- A completed generic query: the visited set is duplicate-free and every
event occurs in the result once per batch occurrence times once per
indexed-side asset entry whose location was visited. -/
theorem queryFull_count (proj₁ proj₂ : LEvent → List String)
    (records : List LEvent) (seed : String) (depth : Nat) (e : LEvent) :
    ∃ V res, queryFull proj₁ proj₂ records seed depth = some (V, res) ∧
      V.Nodup ∧
      res.count e = (V.map fun loc => records.count e * ((proj₁ e).count loc)).sum := by
  obtain ⟨⟨V, res⟩, hsome⟩ :=
    Option.isSome_iff_exists.mp (queryFull_isSome proj₁ proj₂ records seed depth)
  obtain ⟨nl, hV, hres, _, hnd⟩ :=
    traverse_visited_result _ _ _ _ _ _ _ _ _ hsome
  simp only [List.append_nil] at hV
  subst hV
  refine ⟨V, res, hsome, hnd, ?_⟩
  rw [hres]
  simp only [List.nil_append, List.count_flatMap]
  rw [List.map_reverse, List.sum_reverse]
  congr 1
  apply List.map_congr_left
  intro loc _
  simp only [Function.comp_apply]
  exact count_lookupBy proj₁ records loc e

/-- C7: on the cyclic two-event batch (`E1` consumes A and produces B,
`E2` consumes B and produces A), `get_upstream("A", 5)` terminates and
returns exactly the events E1 and E2 once each; and in general both
`get_upstream` and `get_downstream` terminate on every finite batch (the
modelled loop exits within its fuel for every batch, seed and depth),
because a location is marked visited before its events are expanded and
is never re-expanded. -/
theorem lineage_traversal_terminates :
    (∃ res, getUpstream [ev1, ev2] "A" 5 = some res ∧
      res.count ev1 = 1 ∧ res.count ev2 = 1 ∧ res.length = 2) ∧
    (∀ records seed depth, (getUpstream records seed depth).isSome) ∧
    (∀ records seed depth, (getDownstream records seed depth).isSome) := by
  refine ⟨⟨[ev2, ev1], by decide, by decide, by decide, by decide⟩, ?_, ?_⟩
  · intro records seed depth
    obtain ⟨p, hp⟩ := Option.isSome_iff_exists.mp (queryFull_isSome _ _ records seed depth)
    unfold getUpstream getUpstreamFull
    rw [hp]
    rfl
  · intro records seed depth
    obtain ⟨p, hp⟩ := Option.isSome_iff_exists.mp (queryFull_isSome _ _ records seed depth)
    unfold getDownstream getDownstreamFull
    rw [hp]
    rfl

/-- Closed instance of `lineage_traversal_terminates`: the general
termination parts applied to a concrete batch, seed and depth. -/
theorem lineage_traversal_terminates_witness :
    (getUpstream [ev1] "A" 3).isSome ∧ (getDownstream [ev1] "A" 3).isSome :=
  ⟨lineage_traversal_terminates.2.1 [ev1] "A" 3,
    lineage_traversal_terminates.2.2 [ev1] "A" 3⟩

/-- C10 counterexample: an event listing the same output location twice is
emitted twice by the single visit of that location, so it does not occur
"exactly once per distinct visited location contained in its output
locations" — its outputs contain exactly one distinct location, yet it
occurs twice in the result. -/
theorem duplicate_output_location_cex :
    ∃ res, getUpstream [evDup] "B" 5 = some res ∧
      res.count evDup = 2 ∧ evDup.outputs.dedup = ["B"] :=
  ⟨[evDup, evDup], by decide, by decide, by decide⟩

/-- C10 (amended): in `get_upstream`, each event occurs in the returned
list once per output-asset entry (with multiplicity) whose location is
visited, times its multiplicity in the batch — so with pairwise-distinct
output locations this is exactly once per distinct visited location, and
an event with two or more output locations each reached within the depth
bound appears multiple times; no single location is expanded twice (the
visited list is duplicate-free).  Mirrored for `get_downstream` with input
locations. -/
theorem event_occurrence_count :
    ∀ records seed depth e,
      (∃ V res, getUpstreamFull records seed depth = some (V, res) ∧
        getUpstream records seed depth = some res ∧ V.Nodup ∧
        res.count e = (V.map fun loc => records.count e * (e.outputs.count loc)).sum) ∧
      (∃ V res, getDownstreamFull records seed depth = some (V, res) ∧
        getDownstream records seed depth = some res ∧ V.Nodup ∧
        res.count e = (V.map fun loc => records.count e * (e.inputs.count loc)).sum) := by
  intro records seed depth e
  constructor
  · obtain ⟨V, res, hsome, hnd, hcount⟩ :=
      queryFull_count (fun r => r.outputs) (fun r => r.inputs) records seed depth e
    exact ⟨V, res, hsome, by rw [getUpstream, getUpstreamFull, hsome]; rfl, hnd, hcount⟩
  · obtain ⟨V, res, hsome, hnd, hcount⟩ :=
      queryFull_count (fun r => r.inputs) (fun r => r.outputs) records seed depth e
    exact ⟨V, res, hsome, by rw [getDownstream, getDownstreamFull, hsome]; rfl, hnd, hcount⟩

/-- Closed instance of `event_occurrence_count` at a concrete batch. -/
theorem event_occurrence_count_witness :
    ∃ V res, getUpstreamFull [ev1] "B" 1 = some (V, res) ∧
      getUpstream [ev1] "B" 1 = some res ∧ V.Nodup ∧
      res.count ev1 = (V.map fun loc => ([ev1].count ev1) * (ev1.outputs.count loc)).sum :=
  (event_occurrence_count [ev1] "B" 1 ev1).1

/-- C1 counterexample: on a realistic non-empty dataset the decision
policy is not evaluated at all — the DM-style AGE contract declares
numeric bounds, and when the AGE column arrives as strings the bound
check of `validate_values` raises `TypeError` before the decision chain,
so `validate_against_contract` raises instead of returning an action. -/
theorem policy_not_evaluated_cex :
    0 < dfLen dfAgeStr ∧
    validateAgainstContract dfAgeStr contractAge
      = Except.error "TypeError: ordering comparison of str and numeric" :=
  ⟨by decide, rfl⟩

/-- C1 (amended): on every contract and non-empty dataset on which the
value checks complete without raising (equivalently, whenever
`validate_against_contract` returns a result at all), the code's decision
matches the specification's strictly ordered policy — breaking change ⇒
quarantine/invalid, else failure share above 5% ⇒ quarantine/invalid,
else any failure ⇒ alert/valid, else any (non-breaking) schema change ⇒
alert/valid, else accept/valid; in particular 6 failing records out of
100 quarantine and 5 out of 100 alert (see the witness).  The code nests
the 5% test inside a `failed_records > 0` guard, which coincides with the
spec's order because the failure share of a non-empty dataset is positive
only when `failed_records > 0`. -/
theorem decision_policy_matches_spec (df : DFrame) (c : DataContract)
    (vv : List (String × Nat)) (hpos : 0 < dfLen df)
    (hvv : validateValues df c = Except.ok vv) :
    (validateAgainstContract df c).map (fun r => (r.action, r.isValid))
      = Except.ok (specDecisionPolicy (hasBreakingChange df c) (anySchemaChange df c)
          ((vv.map (fun p => p.2)).sum) (dfLen df)) := by
  have ht : ¬ (dfLen df = 0) := Nat.pos_iff_ne_zero.mp hpos
  unfold validateAgainstContract specDecisionPolicy hasBreakingChange anySchemaChange
  rw [hvv]
  dsimp only
  by_cases hb : ((detectSchemaChanges df c).any (fun ch => ch.isBreaking)) = true
  · rw [if_pos hb, if_pos hb]
    rfl
  · rw [if_neg hb, if_neg hb]
    by_cases hf : 0 < ((vv.map (fun p => p.2)).sum)
    · rw [if_pos hf, if_neg ht]
      by_cases hr : (5 : ℚ) / 100
          < (Nat.cast ((vv.map (fun p => p.2)).sum) : ℚ) / (Nat.cast (dfLen df) : ℚ)
      · rw [if_pos hr, if_pos hr]
        rfl
      · rw [if_neg hr, if_neg hr, if_pos hf]
        rfl
    · have hf0 : ((vv.map (fun p => p.2)).sum) = 0 := by omega
      have hr : ¬ ((5 : ℚ) / 100
          < (Nat.cast ((vv.map (fun p => p.2)).sum) : ℚ) / (Nat.cast (dfLen df) : ℚ)) := by
        rw [hf0]
        norm_num
      rw [if_neg hf, if_neg hr, if_neg hf]
      by_cases hne : (!(detectSchemaChanges df c).isEmpty) = true
      · rw [if_pos hne, if_pos hne]
        rfl
      · rw [if_neg hne, if_neg hne]
        rfl

/-- Closed instance of `decision_policy_matches_spec`, realising the
spec's threshold property: with 100 records, no schema change and 6
failing records the action is quarantine, with 5 failing records it is
alert. -/
theorem decision_policy_matches_spec_witness :
    (0 < dfLen (dfNulls 6 100) ∧
      (validateAgainstContract (dfNulls 6 100) contractA).map (fun r => (r.action, r.isValid))
        = Except.ok ("quarantine", false)) ∧
    (0 < dfLen (dfNulls 5 100) ∧
      (validateAgainstContract (dfNulls 5 100) contractA).map (fun r => (r.action, r.isValid))
        = Except.ok ("alert", true)) := by
  constructor
  · refine ⟨by decide, ?_⟩
    have hvv : validateValues (dfNulls 6 100) contractA = Except.ok [("A", 6)] := rfl
    rw [decision_policy_matches_spec (dfNulls 6 100) contractA [("A", 6)] (by decide) hvv]
    have h1 : hasBreakingChange (dfNulls 6 100) contractA = false := by decide
    have h2 : anySchemaChange (dfNulls 6 100) contractA = false := by decide
    have h3 : ((([("A", 6)] : List (String × Nat))).map (fun p => p.2)).sum = 6 := by decide
    have h4 : dfLen (dfNulls 6 100) = 100 := by decide
    rw [h1, h2, h3, h4]
    unfold specDecisionPolicy
    norm_num
  · refine ⟨by decide, ?_⟩
    have hvv : validateValues (dfNulls 5 100) contractA = Except.ok [("A", 5)] := rfl
    rw [decision_policy_matches_spec (dfNulls 5 100) contractA [("A", 5)] (by decide) hvv]
    have h1 : hasBreakingChange (dfNulls 5 100) contractA = false := by decide
    have h2 : anySchemaChange (dfNulls 5 100) contractA = false := by decide
    have h3 : ((([("A", 5)] : List (String × Nat))).map (fun p => p.2)).sum = 5 := by decide
    have h4 : dfLen (dfNulls 5 100) = 100 := by decide
    rw [h1, h2, h3, h4]
    unfold specDecisionPolicy
    norm_num

/-- Every per-column check of an empty column reports zero failures, and
none of them can raise: there is no cell on which a bound check could
meet a string. -/
theorem colFailedCount_nil (cc : ColumnContract) :
    colFailedCount cc [] = Except.ok 0 := by
  cases hm : cc.minValue <;> cases hM : cc.maxValue <;>
    simp [colFailedCount, nullCount, dupCount, dupCountAux, invalidAllowedCount,
      belowMinCount, aboveMaxCount, exCount, hm, hM]

/-- Inserting into the per-column results dict preserves "all counts are
zero" when the inserted count is zero. -/
theorem dictInsert_all_zero {l : List (String × Nat)} (h : ∀ p ∈ l, p.2 = 0)
    (k : String) : ∀ p ∈ dictInsert l k 0, p.2 = 0 := by
  intro p hp
  unfold dictInsert at hp
  by_cases hk : l.any (fun q => q.1 == k)
  · rw [if_pos hk] at hp
    obtain ⟨q, hq, hpq⟩ := List.mem_map.mp hp
    by_cases hqk : q.1 == k
    · rw [if_pos hqk] at hpq
      rw [← hpq]
    · rw [if_neg hqk] at hpq
      rw [← hpq]
      exact h q hq
  · rw [if_neg hk] at hp
    rcases List.mem_append.mp hp with hin | hin
    · exact h p hin
    · simp only [List.mem_singleton] at hin
      rw [hin]

/-- On a dataset with no rows, `validate_values` completes without
raising and reports a zero failed count for every column it checks. -/
theorem validateValues_all_zero (df : DFrame) (c : DataContract)
    (hempty : ∀ col ∈ df.cols, col.values = []) :
    ∃ vv, validateValues df c = Except.ok vv ∧ ∀ p ∈ vv, p.2 = 0 := by
  unfold validateValues
  suffices h : ∀ (cols : List ColumnContract) (acc : List (String × Nat)),
      (∀ p ∈ acc, p.2 = 0) →
      ∃ vv, validateValuesAux df cols acc = Except.ok vv ∧ ∀ p ∈ vv, p.2 = 0 by
    exact h c.columns [] (by simp)
  intro cols
  induction cols with
  | nil =>
    intro acc hacc
    exact ⟨acc, rfl, hacc⟩
  | cons cc rest ih =>
    intro acc hacc
    rw [validateValuesAux]
    cases hfind : findCol df cc.name with
    | none => exact ih acc hacc
    | some col =>
      dsimp only
      have hcol : col ∈ df.cols := List.mem_of_find?_eq_some hfind
      have hvals : col.values = [] := hempty col hcol
      rw [hvals, colFailedCount_nil]
      exact ih (dictInsert acc cc.name 0) (dictInsert_all_zero hacc cc.name)

/-- C2: on an empty dataset (`total_records = 0`) `validate_against_contract`
returns a result rather than raising `ZeroDivisionError`: `validate_values`
reports zero failed records for every column of an empty dataset, so the
`failed_records > 0` branch guarding the unguarded division is never
entered and the quarantine-by-ratio branch is never taken — the result can
only quarantine through a breaking schema change. -/
theorem empty_dataset_returns_ok (df : DFrame) (c : DataContract)
    (hwf : DFwf df) (h0 : dfLen df = 0) :
    ∃ r, validateAgainstContract df c = Except.ok r ∧ r.failedRecords = 0 ∧
      (r.action = "quarantine" → r.hasBreakingChanges = true) := by
  have hempty : ∀ col ∈ df.cols, col.values = [] := by
    intro col hcol
    have := hwf col hcol
    rw [h0] at this
    exact List.length_eq_zero.mp this
  obtain ⟨vv, hvv, hzero⟩ := validateValues_all_zero df c hempty
  have hsum : ((vv.map (fun p => p.2)).sum) = 0 := by
    apply List.sum_eq_zero
    intro x hx
    obtain ⟨p, hp, rfl⟩ := List.mem_map.mp hx
    exact hzero p hp
  have hnf : ¬ (0 < ((vv.map (fun p => p.2)).sum)) := by omega
  unfold validateAgainstContract
  rw [hvv]
  dsimp only
  by_cases hb : ((detectSchemaChanges df c).any (fun ch => ch.isBreaking)) = true
  · rw [if_pos hb]
    exact ⟨_, rfl, hsum, fun _ => hb⟩
  · rw [if_neg hb, if_neg hnf]
    by_cases hne : (!(detectSchemaChanges df c).isEmpty) = true
    · rw [if_pos hne]
      refine ⟨_, rfl, hsum, fun hq => ?_⟩
      have hne2 : ("alert" : String) ≠ "quarantine" := by decide
      exact absurd hq hne2
    · rw [if_neg hne]
      refine ⟨_, rfl, hsum, fun hq => ?_⟩
      have hne2 : ("accept" : String) ≠ "quarantine" := by decide
      exact absurd hq hne2

/-- Closed instance of `empty_dataset_returns_ok` on a concrete zero-row
dataset and contract. -/
theorem empty_dataset_returns_ok_witness :
    DFwf (dfNulls 0 0) ∧ dfLen (dfNulls 0 0) = 0 ∧
    ∃ r, validateAgainstContract (dfNulls 0 0) contractA = Except.ok r ∧
      r.failedRecords = 0 ∧
      (r.action = "quarantine" → r.hasBreakingChanges = true) :=
  ⟨by decide, by decide,
    empty_dataset_returns_ok (dfNulls 0 0) contractA (by decide) (by decide)⟩

/-- Any declared column name absent from the dataset produces a
COLUMN_REMOVED change whose breaking flag depends only on the
compatibility mode — the column's `nullable` flag plays no role. -/
theorem removed_change_mem (df : DFrame) (c : DataContract) (n : String)
    (hdecl : n ∈ c.columns.map (fun cc => cc.name))
    (habs : n ∉ df.cols.map (fun col => col.name)) :
    ∃ ch ∈ detectSchemaChanges df c, ch.changeType = ChangeType.columnRemoved ∧
      ch.columnName = n ∧
      ch.isBreaking = (c.compatibilityMode == CompatibilityMode.backward ||
        c.compatibilityMode == CompatibilityMode.full) := by
  refine ⟨SchemaChange.mk ChangeType.columnRemoved n
      ((colMapFind c n).map (fun cc => cc.dtype)) none
      (c.compatibilityMode == CompatibilityMode.backward ||
        c.compatibilityMode == CompatibilityMode.full)
      ("Required column '" ++ n ++ "' missing from incoming data"),
    ?_, rfl, rfl, rfl⟩
  unfold detectSchemaChanges
  refine List.mem_append.mpr (Or.inl (List.mem_append.mpr (Or.inr ?_)))
  apply List.mem_map.mpr
  refine ⟨n, List.mem_filter.mpr ⟨List.mem_dedup.mpr hdecl, ?_⟩, rfl⟩
  simpa [List.contains, List.elem_eq_mem, List.mem_dedup] using habs

/-- C9 counterexample: the missing optional column OPT does yield a
breaking COLUMN_REMOVED change, but no quarantine is forced — the
contract's other (AGE) column holds strings under a numeric bound, so
`validate_values` raises `TypeError` before any action is computed and
`validate_against_contract` produces no action at all. -/
theorem missing_column_no_action_cex :
    (∃ ch ∈ detectSchemaChanges dfAgeStr contractOptAge,
      ch.changeType = ChangeType.columnRemoved ∧ ch.columnName = "OPT" ∧
      ch.isBreaking = true) ∧
    validateAgainstContract dfAgeStr contractOptAge
      = Except.error "TypeError: ordering comparison of str and numeric" :=
  ⟨by decide, rfl⟩

/-- C9 (amended, implicit): under BACKWARD (or FULL) compatibility every
declared column missing from the dataset — optional (`nullable = true`)
columns included — yields a breaking COLUMN_REMOVED change, and whenever
`validate_against_contract` returns a result at all, that result is
`action = "quarantine"` with `is_valid = false`, just as for a missing
required column; the value checks may instead raise `TypeError` on an
unrelated bounded column of string cells, in which case no action is
produced. -/
theorem missing_nullable_column_breaking (df : DFrame) (c : DataContract)
    (col : ColumnContract) (r : ContractValidationResult)
    (hmode : c.compatibilityMode = CompatibilityMode.backward ∨
      c.compatibilityMode = CompatibilityMode.full)
    (hcol : col ∈ c.columns)
    (habs : col.name ∉ df.cols.map (fun x => x.name))
    (hok : validateAgainstContract df c = Except.ok r) :
    (∃ ch ∈ detectSchemaChanges df c, ch.changeType = ChangeType.columnRemoved ∧
      ch.columnName = col.name ∧ ch.isBreaking = true) ∧
    r.action = "quarantine" ∧ r.isValid = false := by
  have hbr : (c.compatibilityMode == CompatibilityMode.backward ||
      c.compatibilityMode == CompatibilityMode.full) = true := by
    rcases hmode with h | h <;> simp [h]
  obtain ⟨ch, hmem, h1, h2, h3⟩ :=
    removed_change_mem df c col.name (List.mem_map_of_mem _ hcol) habs
  rw [hbr] at h3
  refine ⟨⟨ch, hmem, h1, h2, h3⟩, ?_⟩
  have hb : ((detectSchemaChanges df c).any (fun x => x.isBreaking)) = true :=
    List.any_eq_true.mpr ⟨ch, hmem, by rw [h3]⟩
  unfold validateAgainstContract at hok
  cases hvv : validateValues df c with
  | error e =>
    rw [hvv] at hok
    exact absurd hok (by simp)
  | ok vv =>
    rw [hvv] at hok
    dsimp only at hok
    rw [if_pos hb] at hok
    cases hok
    exact ⟨rfl, rfl⟩

/-- Closed instance of `missing_nullable_column_breaking`: the contract's
only column is optional and absent from the dataset, the call returns a
result, and that result is quarantined. -/
theorem missing_nullable_column_breaking_witness :
    ∃ r, validateAgainstContract (dfNulls 0 0) contractOpt = Except.ok r ∧
      (∃ ch ∈ detectSchemaChanges (dfNulls 0 0) contractOpt,
        ch.changeType = ChangeType.columnRemoved ∧
        ch.columnName = optCol.name ∧ ch.isBreaking = true) ∧
      r.action = "quarantine" ∧ r.isValid = false := by
  obtain ⟨r, hr⟩ : ∃ r, validateAgainstContract (dfNulls 0 0) contractOpt
      = Except.ok r := ⟨_, rfl⟩
  obtain ⟨h1, h2, h3⟩ := missing_nullable_column_breaking (dfNulls 0 0) contractOpt
    optCol r (Or.inl rfl) (by decide) (by decide) hr
  exact ⟨r, hr, h1, h2, h3⟩

/-- Unfolding of `runRule` when the predicate returns normally. -/
theorem runRule_ok (total : Nat) (idc : String) (df : DFrame) (rule : VRule)
    (passed : Bool) (failedDf : DFrame)
    (hf : rule.func df = Except.ok (passed, failedDf)) :
    runRule total idc df rule =
      { ruleName := rule.name, description := rule.description,
        severity := rule.severity, passed := passed, recordsChecked := total,
        recordsFailed := dfLen failedDf,
        failurePercentage :=
          if 0 < total then (dfLen failedDf : ℚ) / (total : ℚ) * 100 else 0,
        failedRecordIds :=
          if 0 < dfLen failedDf
          then ((findCol failedDf idc).map (fun col => col.values)).getD []
          else [],
        details := [] } := by
  unfold runRule
  rw [hf]

/-- Unfolding of `runRule` when the predicate raises. -/
theorem runRule_err (total : Nat) (idc : String) (df : DFrame) (rule : VRule)
    (e : String) (hf : rule.func df = Except.error e) :
    runRule total idc df rule =
      { ruleName := rule.name, description := rule.description,
        severity := ValidationSeverity.error, passed := false,
        recordsChecked := total, recordsFailed := total,
        failurePercentage := 100, failedRecordIds := [],
        details := [("error", e)] } := by
  unfold runRule
  rw [hf]

/-- The derived status is FAILED exactly when some ERROR-severity result
did not pass. -/
theorem statusOf_failed_iff (results : List ValidationResult) :
    statusOf results = ValidationStatus.failed ↔
      ∃ r ∈ results, r.severity = ValidationSeverity.error ∧ r.passed = false := by
  unfold statusOf
  by_cases hE : (results.any fun r =>
      !r.passed && r.severity == ValidationSeverity.error) = true
  · rw [if_pos hE]
    simp only [List.any_eq_true, Bool.and_eq_true, Bool.not_eq_true', beq_iff_eq] at hE
    obtain ⟨r, hr, hp, hs⟩ := hE
    exact iff_of_true rfl ⟨r, hr, hs, hp⟩
  · rw [if_neg hE]
    constructor
    · intro hcontra
      by_cases hW : (results.any fun r =>
          !r.passed && r.severity == ValidationSeverity.warning) = true
      · rw [if_pos hW] at hcontra
        exact absurd hcontra (by decide)
      · rw [if_neg hW] at hcontra
        exact absurd hcontra (by decide)
    · intro ⟨r, hr, hs, hp⟩
      exact absurd (List.any_eq_true.mpr ⟨r, hr, by simp [hp, hs]⟩) hE

/-- The derived status is PASSED exactly when every non-passed result has
INFO severity (non-passed ERROR or WARNING results preclude it). -/
theorem statusOf_passed_iff (results : List ValidationResult) :
    statusOf results = ValidationStatus.passed ↔
      ∀ r ∈ results, r.passed = false → r.severity = ValidationSeverity.info := by
  unfold statusOf
  by_cases hE : (results.any fun r =>
      !r.passed && r.severity == ValidationSeverity.error) = true
  · rw [if_pos hE]
    simp only [List.any_eq_true, Bool.and_eq_true, Bool.not_eq_true', beq_iff_eq] at hE
    obtain ⟨r, hr, hp, hs⟩ := hE
    refine iff_of_false (by decide) ?_
    intro hall
    have := hall r hr hp
    rw [hs] at this
    exact absurd this (by decide)
  · rw [if_neg hE]
    by_cases hW : (results.any fun r =>
        !r.passed && r.severity == ValidationSeverity.warning) = true
    · rw [if_pos hW]
      simp only [List.any_eq_true, Bool.and_eq_true, Bool.not_eq_true', beq_iff_eq] at hW
      obtain ⟨r, hr, hp, hs⟩ := hW
      refine iff_of_false (by decide) ?_
      intro hall
      have := hall r hr hp
      rw [hs] at this
      exact absurd this (by decide)
    · rw [if_neg hW]
      refine iff_of_true rfl ?_
      intro r hr hp
      cases hs : r.severity with
      | error => exact absurd (List.any_eq_true.mpr ⟨r, hr, by simp [hp, hs]⟩) hE
      | warning => exact absurd (List.any_eq_true.mpr ⟨r, hr, by simp [hp, hs]⟩) hW
      | info => rfl

/-- C3 counterexample: a run whose only rule is a non-passed INFO-severity
result ends with status PASSED although not every result passed — the
claim's "PASSED iff all results passed" direction fails on the code. -/
theorem passed_status_not_all_passed_cex :
    (validate ⟨"TEST", [infoFailRule]⟩ dfOneRow "USUBJID").status
      = ValidationStatus.passed ∧
    ∃ r ∈ (validate ⟨"TEST", [infoFailRule]⟩ dfOneRow "USUBJID").results,
      r.passed = false := by
  constructor
  · rfl
  · exact ⟨runRule 1 "USUBJID" dfOneRow infoFailRule, List.mem_singleton_self _, rfl⟩

/-- C3 (amended): the report status is FAILED iff some ERROR-severity
result has `passed = false`; it is PASSED iff every non-passed result has
INFO severity — equivalently, no non-passed ERROR or WARNING result exists
(a non-passed INFO result still yields PASSED, so "PASSED iff all results
passed" holds only in the absence of INFO rules). -/
theorem status_characterization (v : ClinicalDataValidator) (df : DFrame)
    (idc : String) :
    ((validate v df idc).status = ValidationStatus.failed ↔
      ∃ r ∈ (validate v df idc).results,
        r.severity = ValidationSeverity.error ∧ r.passed = false) ∧
    ((validate v df idc).status = ValidationStatus.passed ↔
      ∀ r ∈ (validate v df idc).results,
        r.passed = false → r.severity = ValidationSeverity.info) :=
  ⟨statusOf_failed_iff _, statusOf_passed_iff _⟩

/-- Closed instance of `status_characterization` on a concrete run. -/
theorem status_characterization_witness :
    ((validate ⟨"TEST", [infoFailRule]⟩ dfOneRow "USUBJID").status
        = ValidationStatus.failed ↔
      ∃ r ∈ (validate ⟨"TEST", [infoFailRule]⟩ dfOneRow "USUBJID").results,
        r.severity = ValidationSeverity.error ∧ r.passed = false) ∧
    ((validate ⟨"TEST", [infoFailRule]⟩ dfOneRow "USUBJID").status
        = ValidationStatus.passed ↔
      ∀ r ∈ (validate ⟨"TEST", [infoFailRule]⟩ dfOneRow "USUBJID").results,
        r.passed = false → r.severity = ValidationSeverity.info) :=
  status_characterization ⟨"TEST", [infoFailRule]⟩ dfOneRow "USUBJID"

/-- C4 counterexample: an empty dataset with a raising rule yields the
synthesized result with `records_checked = 0` but
`failure_percentage = 100`, refuting "records_checked = 0 implies
failure_percentage = 0" for the exception path. -/
theorem exception_result_percentage_cex :
    ∃ r ∈ (validate ⟨"TEST", [boomRule]⟩ dfNoRows "USUBJID").results,
      r.recordsChecked = 0 ∧ r.failurePercentage = 100 ∧
        ¬ (r.failurePercentage = 0) := by
  refine ⟨runRule 0 "USUBJID" dfNoRows boomRule, List.mem_singleton_self _, rfl, rfl, ?_⟩
  intro h
  have h100 : (100 : ℚ) = 0 := h
  norm_num at h100

/-- C4 (amended): every result whose predicate evaluated normally (its
`details` dict is empty — the engine only populates `details` on the
exception path) has `failure_percentage = 0` whenever
`records_checked = 0`; the exception-synthesized result instead carries
`failure_percentage = 100` even on an empty dataset. -/
theorem percentage_zero_on_ok_results (v : ClinicalDataValidator) (df : DFrame)
    (idc : String) :
    ∀ r ∈ (validate v df idc).results,
      r.recordsChecked = 0 → r.details = [] → r.failurePercentage = 0 := by
  intro r hr h0 hdet
  have hr2 : r ∈ v.rules.map (runRule (dfLen df) idc df) := hr
  obtain ⟨rule, hrule, rfl⟩ := List.mem_map.mp hr2
  cases hf : rule.func df with
  | ok p =>
    obtain ⟨passed, failedDf⟩ := p
    rw [runRule_ok (dfLen df) idc df rule passed failedDf hf] at h0 ⊢
    have h00 : dfLen df = 0 := h0
    show (if 0 < dfLen df then (dfLen failedDf : ℚ) / (dfLen df : ℚ) * 100 else 0) = 0
    rw [if_neg (by omega)]
  | error e =>
    rw [runRule_err (dfLen df) idc df rule e hf] at hdet
    have hcons : ([("error", e)] : List (String × String)) = [] := hdet
    simp at hcons

/-- Closed instance of `percentage_zero_on_ok_results` on a concrete
zero-row run with a successfully evaluated rule. -/
theorem percentage_zero_on_ok_results_witness :
    (runRule 0 "USUBJID" dfNoRows (VRule.mk "R_OK" "ok" okFunc ValidationSeverity.error))
        ∈ (validate ⟨"TEST", [VRule.mk "R_OK" "ok" okFunc ValidationSeverity.error]⟩
          dfNoRows "USUBJID").results ∧
    (runRule 0 "USUBJID" dfNoRows (VRule.mk "R_OK" "ok" okFunc
        ValidationSeverity.error)).failurePercentage = 0 := by
  constructor
  · exact List.mem_singleton_self _
  · exact percentage_zero_on_ok_results
      ⟨"TEST", [VRule.mk "R_OK" "ok" okFunc ValidationSeverity.error]⟩ dfNoRows "USUBJID"
      _ (List.mem_singleton_self _) rfl rfl

/-- C5: `validate` is a total function — a raising rule never aborts the
run — and for every dataset it yields exactly one result per registered
rule, in registration order; the result at position `i` carries rule `i`'s
name, and when that rule's predicate raises it is the synthesized
non-passed ERROR result with `records_failed = total_records`,
`failure_percentage = 100` and the error message embedded in `details`. -/
theorem validate_per_rule_results (v : ClinicalDataValidator) (df : DFrame)
    (idc : String) (i : Nat) (rule : VRule) (hi : v.rules[i]? = some rule) :
    (validate v df idc).results.length = v.rules.length ∧
    ∃ r, (validate v df idc).results[i]? = some r ∧ r.ruleName = rule.name ∧
      ∀ e, rule.func df = Except.error e →
        r.passed = false ∧ r.severity = ValidationSeverity.error ∧
        r.recordsChecked = dfLen df ∧ r.recordsFailed = dfLen df ∧
        r.failurePercentage = 100 ∧ r.details = [("error", e)] := by
  constructor
  · show (v.rules.map (runRule (dfLen df) idc df)).length = v.rules.length
    rw [List.length_map]
  · refine ⟨runRule (dfLen df) idc df rule, ?_, ?_, ?_⟩
    · show (v.rules.map (runRule (dfLen df) idc df))[i]?
        = some (runRule (dfLen df) idc df rule)
      rw [List.getElem?_map, hi]
      rfl
    · cases hf : rule.func df with
      | ok p =>
        obtain ⟨passed, failedDf⟩ := p
        rw [runRule_ok (dfLen df) idc df rule passed failedDf hf]
      | error e =>
        rw [runRule_err (dfLen df) idc df rule e hf]
    · intro e hf
      rw [runRule_err (dfLen df) idc df rule e hf]
      exact ⟨rfl, rfl, rfl, rfl, rfl, rfl⟩

/-- Closed instance of `validate_per_rule_results`: a one-rule run whose
only rule raises, fully instantiated. -/
theorem validate_per_rule_results_witness :
    (validate ⟨"TEST", [boomRule]⟩ dfOneRow "USUBJID").results.length = 1 ∧
    ∃ r, (validate ⟨"TEST", [boomRule]⟩ dfOneRow "USUBJID").results[0]? = some r ∧
      r.ruleName = "R_BOOM" ∧ r.passed = false ∧
      r.severity = ValidationSeverity.error ∧ r.recordsChecked = 1 ∧
      r.recordsFailed = 1 ∧ r.failurePercentage = 100 ∧
      r.details = [("error", "boom")] := by
  obtain ⟨hlen, r, hget, hname, herr⟩ :=
    validate_per_rule_results ⟨"TEST", [boomRule]⟩ dfOneRow "USUBJID" 0 boomRule rfl
  obtain ⟨h1, h2, h3, h4, h5, h6⟩ := herr "boom" rfl
  exact ⟨hlen, r, hget, hname, h1, h2, h3, h4, h5, h6⟩

/-- C6 (code behaviour at the failing input): `add_rule` performs no
duplicate-name check — calling it twice with the same name on one engine
instance registers both rules and raises no error, so uniqueness of rule
names is not enforced, contrary to the stated contract. -/
theorem add_rule_allows_duplicate_names :
    ((addRule (addRule emptyValidator "R1" "d" okFunc ValidationSeverity.error)
        "R1" "d" okFunc ValidationSeverity.error).rules.map (fun r => r.name))
      = ["R1", "R1"] := rfl

/-- C8 (code behaviour at the failing input): the `DataContract` whose
primary key names the column `USUBJID` absent from its declared columns is
constructed without any error — the dataclass and `load` perform no
primary-key validation — and a dataset is subsequently evaluated against
it, returning an ordinary result instead of failing fast at definition
time. -/
theorem contract_construction_unchecked :
    contractBadPK.primaryKey = ["USUBJID"] ∧
    contractBadPK.columns.map (fun cc => cc.name) = ["A"] ∧
    "USUBJID" ∉ contractBadPK.columns.map (fun cc => cc.name) ∧
    (validateAgainstContract dfOneRow contractBadPK).map (fun r => r.action)
      = Except.ok "quarantine" :=
  ⟨rfl, rfl, by decide, rfl⟩

end ClinicalPlatform
